import Mathlib

/-!
Verification development for the Amazon affiliate product search-and-ranking
engine of this repository.

Embedded source files:
- `src/server/services/amazon-service.ts` — the live `AmazonService` (searchProducts,
  getItemsDetails without a cache, scoreProduct, isMainProduct, the eligibility
  filter, and the rank-first sort comparator);
- `src/unnamed/part_002` — the sibling revision of the same service (identical
  scoreProduct / isMainProduct / eligibility filter; a score-first sort
  comparator; getItemsDetails with a Detail Cache partition);
- `src/server/services/content-generator.ts` — the caller that raises
  "No products found for this keyword" on an empty search result.

Strings are embedded as lists of characters (JS strings are sequences of UTF-16
units); the JS string operations used by the source (toLowerCase, toUpperCase,
split(" "), includes) are translated below.  Network effects are embedded as
oracle functions (page number to page outcome, batch to batch outcome) plus an
explicit event trace recording every pacing delay and outbound transport call.
-/

/-! ## JavaScript string primitives -/

abbrev JSString := List Char

/-- JS `String.prototype.toLowerCase`, applied unit-wise. -/
def jsToLower (s : JSString) : JSString := s.map Char.toLower

/-- JS `String.prototype.toUpperCase`, applied unit-wise. -/
def jsToUpper (s : JSString) : JSString := s.map Char.toUpper

/-- JS `s.split(" ")`: split on every single U+0020 character, keeping the empty
fragments produced by leading, trailing or doubled separators.  `"".split(" ")`
is `[""]`. -/
def splitSpace : JSString → List JSString
  | [] => [[]]
  | c :: cs =>
    match splitSpace cs with
    | [] => [[]]
    | w :: ws => if c = ' ' then [] :: w :: ws else (c :: w) :: ws

/-- Does `w` occur at the very start of `s`?  (Helper for the substring test.) -/
def headMatches : JSString → JSString → Bool
  | [], _ => true
  | _ :: _, [] => false
  | c :: w, d :: s => c == d && headMatches w s

/-- JS `s.includes(w)`: `w` occurs somewhere in `s` as a contiguous substring;
the empty string occurs in every string. -/
def occursIn : JSString → JSString → Bool
  | [], w => w.isEmpty
  | c :: s1, w => headMatches w (c :: s1) || occursIn s1 w

/-! ## Data model -/

/-- The `AmazonProduct` interface of both service revisions.  Fields that the
source declares optional (`?`) are `Option`s; a missing `title` from the
GetItems parser is conflated with the empty string (revision `part_002` already
defaults it with `?? ""`, and the truthiness test used downstream cannot tell
the two apart). -/
structure AmazonProduct where
  asin : JSString
  title : JSString
  description : JSString
  imageUrl : JSString
  affiliateLink : JSString
  price : Option JSString
  isBuyBoxWinner : Option Bool
  isPrimeEligible : Option Bool
  salesRank : Option Nat
  condition : Option JSString
  availabilityType : Option JSString
deriving DecidableEq

/-- A product after the score/annotate map inside `searchProducts`
(`{...product, score, isMain, isBuyBoxWinner: .. ?? false, isPrimeEligible:
.. ?? false, condition: ..toLowerCase() ?? "", salesRank: .. ?? Infinity}`).
`salesRank` lives in `ℕ∞` so that the JS `Infinity` default is `⊤`. -/
structure ScoredProduct where
  asin : JSString
  title : JSString
  description : JSString
  imageUrl : JSString
  affiliateLink : JSString
  price : Option JSString
  isBuyBoxWinner : Bool
  isPrimeEligible : Bool
  salesRank : ℕ∞
  condition : JSString
  availabilityType : Option JSString
  score : Nat
  isMain : Bool
deriving DecidableEq

/-! ## Eligibility and ranking policy (identical in both revisions) -/

/-- The fixed accessory-indicator substrings of `isMainProduct`. -/
def accessoryIndicators : List JSString :=
  [("mount").data, ("accessory").data, ("installation kit").data]

/-- `scoreProduct` (amazon-service.ts lines 459-468, part_002 lines 551-560):
lowercase the title and the keyword, split the keyword on `" "`, and bump the
score once for every resulting word that `title.includes`. -/
def scoreProduct (product : AmazonProduct) (keyword : JSString) : Nat :=
  let title := jsToLower product.title
  (splitSpace (jsToLower keyword)).foldl
    (fun score word => if occursIn title word then score + 1 else score) 0

/-- `isMainProduct` (amazon-service.ts lines 474-491, part_002 lines 566-583):
if the keyword itself contains an accessory indicator every product counts as
main; otherwise a product is main iff its title contains no indicator. -/
def isMainProduct (product : AmazonProduct) (primaryKeyword : JSString) : Bool :=
  let title := jsToLower product.title
  let primaryIsAccessory :=
    accessoryIndicators.any (fun indicator => occursIn (jsToLower primaryKeyword) indicator)
  if primaryIsAccessory then true
  else !(accessoryIndicators.any (fun indicator => occursIn title indicator))

/-- The score/annotate map of `searchProducts` (step after the title filter). -/
def annotate (keyword : JSString) (p : AmazonProduct) : ScoredProduct :=
  ⟨p.asin, p.title, p.description, p.imageUrl, p.affiliateLink, p.price,
    p.isBuyBoxWinner.getD false,
    p.isPrimeEligible.getD false,
    (match p.salesRank with
     | some n => (n : ℕ∞)
     | none => ⊤),
    jsToLower (p.condition.getD []),
    p.availabilityType,
    scoreProduct p keyword,
    isMainProduct p keyword⟩

def newLit : JSString := ("new").data
def nowLit : JSString := ("NOW").data
def inStockLit : JSString := ("IN_STOCK").data

/-- The eligibility filter of `searchProducts` (amazon-service.ts lines 268-292,
part_002 lines 315-339).  A product is kept iff no rejection reason fires:
`score === 0`, not main, not buy box winner, lowercased condition not "new",
`salesRank` not a number below 10000 (the JS `Infinity` default is a number but
is `>= 10000`), availability not in `["NOW", "IN_STOCK"]` after uppercasing. -/
def isEligible (p : ScoredProduct) : Bool :=
  !(p.score == 0) && p.isMain && p.isBuyBoxWinner
    && (jsToLower p.condition == newLit)
    && decide (p.salesRank < (10000 : ℕ∞))
    && ((jsToUpper (p.availabilityType.getD []) == nowLit)
        || (jsToUpper (p.availabilityType.getD []) == inStockLit))

/-- The sort comparator of the live revision (amazon-service.ts lines 293-304):
sales rank ascending first, then Prime eligibility (Prime first), then score
descending.  The JS comparator returns a number whose only observable property
is its sign, embedded here as an `Ordering` (`.lt` = negative = a before b). -/
def compareServer (a b : ScoredProduct) : Ordering :=
  if a.salesRank ≠ b.salesRank then
    (if a.salesRank < b.salesRank then Ordering.lt else Ordering.gt)
  else if b.isPrimeEligible ≠ a.isPrimeEligible then
    (if b.isPrimeEligible then Ordering.gt else Ordering.lt)
  else if a.score > b.score then Ordering.lt
  else if b.score > a.score then Ordering.gt
  else Ordering.eq

/-- The sort comparator of revision part_002 (lines 340-356): score descending
first, then sales rank ascending (`?? Infinity`), then Prime first. -/
def comparePart002 (a b : ScoredProduct) : Ordering :=
  if b.score ≠ a.score then
    (if a.score > b.score then Ordering.lt else Ordering.gt)
  else if a.salesRank ≠ b.salesRank then
    (if a.salesRank < b.salesRank then Ordering.lt else Ordering.gt)
  else if b.isPrimeEligible ≠ a.isPrimeEligible then
    (if b.isPrimeEligible then Ordering.gt else Ordering.lt)
  else Ordering.eq

/-- The sort stage of the live `searchProducts`: a stable sort under the
comparator (modern JS engines' `Array.prototype.sort` is stable; insertion sort
is the stable reference sort). -/
def sortEligible (l : List ScoredProduct) : List ScoredProduct :=
  List.insertionSort (fun a b => compareServer a b ≠ Ordering.gt) l

/-- The sort stage of revision part_002's `searchProducts`. -/
def sortEligiblePart002 (l : List ScoredProduct) : List ScoredProduct :=
  List.insertionSort (fun a b => comparePart002 a b ≠ Ordering.gt) l

/-! ## Transport oracle and event-trace model

The signed transport (`signedAmazonRequest` + `fetch`) is an external
collaborator.  A page or batch request has three observable outcomes in the
source: a successful response with parsed items, a non-success status
(`!response.ok`, logged and skipped), or a thrown rejection (network error or
body-parse failure, which propagates to the enclosing `try`).  The event trace
records every pacing delay and every outbound transport call, in order. -/

/-- A raw search-page item; `searchProducts` in the live revision reads only
`item.ASIN` from it. -/
structure SearchItem where
  asin : JSString
deriving DecidableEq

inductive PageResult where
  | okResp (items : List SearchItem)
  | badStatus
  | thrown
deriving DecidableEq

inductive DetailResult where
  | okResp (items : List AmazonProduct)
  | badStatus
  | thrown
deriving DecidableEq

inductive Ev where
  | sleep (ms : Nat)
  | searchCall (page : Nat)
  | detailCall (batch : List JSString)
deriving DecidableEq

/-- The paged-search loop of `searchProducts` (live revision lines 165-230;
part_002 lines 165-229 is identical except for a 5-page bound and a 50-item
cap).  Each iteration sleeps 1100 ms unconditionally, then issues the page
request; a non-success status is logged and skipped (`continue`) on every page,
page 1 included; a thrown rejection escapes to the outer catch; a page with
fewer than 10 items ends the loop.  `fuel` counts the remaining iterations of
`for (let page = 1; page <= 10; page++)`. -/
def collectPages (resp : Nat → PageResult) : Nat → Nat → List Ev × Except Unit (List SearchItem)
  | 0, _ => ([], Except.ok [])
  | fuel + 1, page =>
    let evs := [Ev.sleep 1100, Ev.searchCall page]
    match resp page with
    | PageResult.thrown => (evs, Except.error ())
    | PageResult.badStatus =>
      let next := collectPages resp fuel (page + 1)
      (evs ++ next.1, next.2)
    | PageResult.okResp items =>
      if items.length < 10 then (evs, Except.ok items)
      else
        let next := collectPages resp fuel (page + 1)
        (evs ++ next.1, next.2.map (fun rest => items ++ rest))

/-- The batch slices `asins.slice(i, i + 10)` taken by the detail-fetch loop of
`getItemsDetails` (batchSize 10 in both revisions).  The loop runs
`⌈n / 10⌉` times; the list length is passed as structural fuel, and
`detailBatches` below always supplies adequate fuel. -/
def detailBatchesGo : Nat → List JSString → List (List JSString)
  | _, [] => []
  | 0, _ :: _ => []
  | fuel + 1, a :: rest =>
    ((a :: rest).take 10) :: detailBatchesGo fuel ((a :: rest).drop 10)

def detailBatches (asins : List JSString) : List (List JSString) :=
  detailBatchesGo asins.length asins

/-- The batched detail-fetch loop of `getItemsDetails` (live revision lines
375-450, part_002 lines 451-542): per batch, issue one bulk GetItems call, and
sleep 1100 ms iff more ids remain (`i + batchSize < asins.length`).  On a
successful response the parsed items are appended and then the pacing delay
runs.  On a non-success status the `continue` inside the `try` jumps straight
to the next iteration, SKIPPING the end-of-iteration sleep, so the next bulk
call follows with no delay.  A thrown rejection is caught by the `catch` (which
only logs); execution then falls through to the sleep, which still runs.
Cache upserts of the part_002 revision are not modelled: no claim observes
them.  Fuel as in `detailBatchesGo`. -/
def detailFetchLoopGo (d : List JSString → DetailResult) :
    Nat → List JSString → List Ev × List AmazonProduct
  | _, [] => ([], [])
  | 0, _ :: _ => ([], [])
  | fuel + 1, a :: rest =>
    let pending := a :: rest
    let batch := pending.take 10
    let remaining := pending.drop 10
    let next := detailFetchLoopGo d fuel remaining
    let pacing : List Ev := if remaining.isEmpty then [] else [Ev.sleep 1100]
    match d batch with
    | DetailResult.okResp items =>
      (Ev.detailCall batch :: (pacing ++ next.1), items ++ next.2)
    | DetailResult.badStatus =>
      (Ev.detailCall batch :: next.1, next.2)
    | DetailResult.thrown =>
      (Ev.detailCall batch :: (pacing ++ next.1), next.2)

def detailFetchLoop (d : List JSString → DetailResult) (asins : List JSString) :
    List Ev × List AmazonProduct :=
  detailFetchLoopGo d asins.length asins

/-- `getItemsDetails` of the live revision (lines 370-452): no cache, every id
goes through the batch loop. -/
def getItemsDetailsServer (d : List JSString → DetailResult) (asins : List JSString) :
    List Ev × List AmazonProduct :=
  detailFetchLoop d asins

/-- The cache-partition loop of part_002's `getItemsDetails` (lines 438-447):
walk the ids in order, pushing a cache hit onto the results and a miss onto the
uncached list. -/
def partitionCached (cache : JSString → Option AmazonProduct) :
    List JSString → List AmazonProduct × List JSString
  | [] => ([], [])
  | a :: rest =>
    let next := partitionCached cache rest
    match cache a with
    | some det => (det :: next.1, next.2)
    | none => (next.1, a :: next.2)

/-- `getItemsDetails` of revision part_002 (lines 434-544): pull from the Detail
Cache first, then fetch only the uncached ids in batches of 10. -/
def getItemsDetailsPart002 (cache : JSString → Option AmazonProduct)
    (d : List JSString → DetailResult) (asins : List JSString) :
    List Ev × List AmazonProduct :=
  let part := partitionCached cache asins
  let fetched := detailFetchLoop d part.2
  (fetched.1, part.1 ++ fetched.2)

/-- Outcome of one `searchProducts` call: the returned array, or a rejection of
the whole operation (the outer catch rethrows a wrapped error). -/
inductive SearchOutcome where
  | failure
  | results (products : List ScoredProduct)
deriving DecidableEq

/-- `searchProducts` of the live revision (lines 147-334) end to end: paged
collection, ASIN extraction, uncached detail fetch, truthy-title filter
(`const isValid = p.title`), score/annotate map, eligibility filter, sort,
`slice(0, count)`.  API settings are assumed present (their absence throws
before any page is requested and is not claim-relevant). -/
def searchProductsServer (resp : Nat → PageResult) (d : List JSString → DetailResult)
    (keyword : JSString) (count : Nat) : List Ev × SearchOutcome :=
  let paged := collectPages resp 10 1
  match paged.2 with
  | Except.error _ => (paged.1, SearchOutcome.failure)
  | Except.ok items =>
    let allAsins := items.map (fun it => it.asin)
    let enriched := getItemsDetailsServer d allAsins
    let withTitles := enriched.2.filter (fun p => !p.title.isEmpty)
    let scored := withTitles.map (annotate keyword)
    let eligibleProducts := scored.filter (fun p => isEligible p)
    let sorted := sortEligible eligibleProducts
    (paged.1 ++ enriched.1, SearchOutcome.results (sorted.take count))

def noProductsMsg : JSString := ("No products found for this keyword").data

inductive GenOutcome where
  | threw (msg : JSString)
  | ok
deriving DecidableEq

/-- The empty-result check of the caller `generateContent`
(content-generator.ts lines 112-114): throw "No products found for this
keyword" iff the array returned by `searchProducts` is empty. -/
def generateContentGate (products : List ScoredProduct) : GenOutcome :=
  if products.length = 0 then GenOutcome.threw noProductsMsg else GenOutcome.ok

/-! ## Spec-side comparison definitions -/

/-- The spec's description of `scoreProduct` ("score = count of distinct keyword
words that appear as a substring of the title"), written from the spec's words
for comparison with the source definition above. -/
def scoreProductSpecDistinct (product : AmazonProduct) (keyword : JSString) : Nat :=
  ((splitSpace (jsToLower keyword)).dedup).countP
    (fun w => occursIn (jsToLower product.title) w)

/-- Modelled from the spec: the pacing contract for a batch loop — one bulk call
per batch, a single delay between successive calls, none before the first call
and none after the last. -/
def pacedCalls : List (List JSString) → List Ev
  | [] => []
  | [b] => [Ev.detailCall b]
  | b :: b2 :: rest => Ev.detailCall b :: Ev.sleep 1100 :: pacedCalls (b2 :: rest)

/-- An event list consisting of repeated blocks of a 1100 ms delay immediately
followed by a search call: the shape of the paged-search loop's trace.  If this
holds, a delay precedes every search call (the first one included). -/
def sleepCallBlocks : List Ev → Bool
  | [] => true
  | Ev.sleep ms :: Ev.searchCall _ :: rest => ms == 1100 && sleepCallBlocks rest
  | _ => false

/-- Extract the bulk-detail calls from an event trace. -/
def detailCallsOf (evs : List Ev) : List (List JSString) :=
  evs.filterMap (fun e =>
    match e with
    | Ev.detailCall b => some b
    | _ => none)

/-! ## The six eligibility criteria, named -/

inductive Criterion where
  | scorePos
  | mainProduct
  | buyBox
  | conditionNew
  | rankBelow
  | availNow
deriving DecidableEq, Fintype

/-- The individual criteria of the eligibility filter, one per rejection
reason of the source. -/
def passes (p : ScoredProduct) : Criterion → Bool
  | Criterion.scorePos => !(p.score == 0)
  | Criterion.mainProduct => p.isMain
  | Criterion.buyBox => p.isBuyBoxWinner
  | Criterion.conditionNew => jsToLower p.condition == newLit
  | Criterion.rankBelow => decide (p.salesRank < (10000 : ℕ∞))
  | Criterion.availNow =>
      (jsToUpper (p.availabilityType.getD []) == nowLit)
        || (jsToUpper (p.availabilityType.getD []) == inStockLit)

/-- Flip exactly the field(s) deciding one criterion to a canonical passing
value, leaving every other field unchanged. -/
def fixCriterion (c : Criterion) (p : ScoredProduct) : ScoredProduct :=
  match c with
  | Criterion.scorePos =>
      ⟨p.asin, p.title, p.description, p.imageUrl, p.affiliateLink, p.price,
        p.isBuyBoxWinner, p.isPrimeEligible, p.salesRank, p.condition,
        p.availabilityType, 1, p.isMain⟩
  | Criterion.mainProduct =>
      ⟨p.asin, p.title, p.description, p.imageUrl, p.affiliateLink, p.price,
        p.isBuyBoxWinner, p.isPrimeEligible, p.salesRank, p.condition,
        p.availabilityType, p.score, true⟩
  | Criterion.buyBox =>
      ⟨p.asin, p.title, p.description, p.imageUrl, p.affiliateLink, p.price,
        true, p.isPrimeEligible, p.salesRank, p.condition,
        p.availabilityType, p.score, p.isMain⟩
  | Criterion.conditionNew =>
      ⟨p.asin, p.title, p.description, p.imageUrl, p.affiliateLink, p.price,
        p.isBuyBoxWinner, p.isPrimeEligible, p.salesRank, newLit,
        p.availabilityType, p.score, p.isMain⟩
  | Criterion.rankBelow =>
      ⟨p.asin, p.title, p.description, p.imageUrl, p.affiliateLink, p.price,
        p.isBuyBoxWinner, p.isPrimeEligible, (1 : ℕ∞), p.condition,
        p.availabilityType, p.score, p.isMain⟩
  | Criterion.availNow =>
      ⟨p.asin, p.title, p.description, p.imageUrl, p.affiliateLink, p.price,
        p.isBuyBoxWinner, p.isPrimeEligible, p.salesRank, p.condition,
        some nowLit, p.score, p.isMain⟩

/-! ## The sort key of the part_002 comparator -/

/-- The lexicographic key realised by `comparePart002`: score descending, then
sales rank ascending (`⊤` = absent, last), then Prime first. -/
def sortKeyPart002 (a : ScoredProduct) : ℕᵒᵈ ×ₗ (ℕ∞ ×ₗ Boolᵒᵈ) :=
  toLex (OrderDual.toDual a.score, toLex (a.salesRank, OrderDual.toDual a.isPrimeEligible))

/-! ## Concrete inputs used by counterexamples and witnesses -/

def exTitleA : JSString := ("a").data
def exKeywordAA : JSString := ("a a").data
def exTabKeyword : JSString := ("a\tb").data
def exSingleSpaceKw : JSString := (" ").data
def exSecurityCameraKw : JSString := ("security camera").data
def exCameraMountKw : JSString := ("camera mount").data
def exCameraKw : JSString := ("camera").data

/-- A bare product record carrying only a title (every other field empty). -/
def mkTitled (title : JSString) : AmazonProduct :=
  ⟨[], title, [], [], [], none, none, none, none, none, none⟩

def exProductA : AmazonProduct := mkTitled exTitleA
def exWirelessCam : AmazonProduct := mkTitled (("Wireless Security Camera").data)
def exCameraWallMount : AmazonProduct := mkTitled (("Camera Wall Mount").data)

/-- An eligible scored product with score 2 and sales rank 500. -/
def exHighScore : ScoredProduct :=
  ⟨("h1").data, ("wireless security camera").data, [], [], [], none,
    true, false, (500 : ℕ∞), newLit, some nowLit, 2, true⟩

/-- An eligible scored product with score 1 and sales rank 50. -/
def exLowScore : ScoredProduct :=
  ⟨("l1").data, ("wireless earphone").data, [], [], [], none,
    true, false, (50 : ℕ∞), newLit, some nowLit, 1, true⟩

/-- A scored product failing exactly the condition criterion. -/
def exFailCondition : ScoredProduct :=
  ⟨[], ("x").data, [], [], [], none, true, false, (5 : ℕ∞), ("used").data,
    some nowLit, 1, true⟩

/-- A fully-populated detail record that passes the title filter and every
eligibility criterion once annotated against `exCameraKw`. -/
def exGoodDetail : AmazonProduct :=
  ⟨("A1").data, ("wireless camera").data, [], [], [], none,
    some true, some true, some 5, some (("New").data), some nowLit⟩

/-- Page oracle for the C6 counterexample: page 1 answers with a non-success
status, page 2 with a single (short) page containing one item. -/
def respFirstPageFails : Nat → PageResult :=
  fun page => if page = 1 then PageResult.badStatus else PageResult.okResp [⟨("A1").data⟩]

/-- Detail oracle answering every batch with the one good detail record. -/
def detailAlwaysGood : List JSString → DetailResult :=
  fun _ => DetailResult.okResp [exGoodDetail]

/-- Page oracle returning an empty successful page everywhere (zero raw
candidates). -/
def respAllEmpty : Nat → PageResult := fun _ => PageResult.okResp []

/-- Detail oracle answering with an empty item list. -/
def detailAlwaysEmpty : List JSString → DetailResult :=
  fun _ => DetailResult.okResp []

/-- A detail record that fails eligibility (not a buy box winner). -/
def exIneligibleDetail : AmazonProduct :=
  ⟨("A1").data, ("wireless camera").data, [], [], [], none,
    some false, some true, some 5, some (("New").data), some nowLit⟩

/-- Page oracle: one successful short page with one raw candidate. -/
def respOneCandidate : Nat → PageResult := fun _ => PageResult.okResp [⟨("A1").data⟩]

/-- Detail oracle answering every batch with the ineligible record. -/
def detailAlwaysIneligible : List JSString → DetailResult :=
  fun _ => DetailResult.okResp [exIneligibleDetail]

/-- Page oracle failing with a non-success status on every page. -/
def respAllBad : Nat → PageResult := fun _ => PageResult.badStatus

/-- A cache in which every id is present, bound to `exGoodDetail`. -/
def cacheAllHit : JSString → Option AmazonProduct := fun _ => some exGoodDetail

/-- 25 ids, for the batch-partitioning instance. -/
def exIds25 : List JSString := List.replicate 25 (("A1").data)

/-- The sequence of batch sizes produced by slicing a list of `n` ids into
consecutive slices of at most 10 (same fuel pattern as `detailBatchesGo`). -/
def batchSizesGo : Nat → Nat → List Nat
  | _, 0 => []
  | 0, _ + 1 => []
  | fuel + 1, n + 1 => min 10 (n + 1) :: batchSizesGo fuel (n + 1 - 10)

def batchSizes (n : Nat) : List Nat := batchSizesGo n n

/-! ## Lemmas about the string primitives -/

theorem headMatches_iff : ∀ w s : JSString, headMatches w s = true ↔ w <+: s := by
  intro w
  induction w with
  | nil =>
    intro s
    simp [headMatches]
  | cons c w ih =>
    intro s
    match s with
    | [] => simp [headMatches]
    | d :: s1 =>
      simp [headMatches, List.cons_prefix_cons, ih, and_comm]

theorem occursIn_iff : ∀ s w : JSString, occursIn s w = true ↔ w <:+: s := by
  intro s
  induction s with
  | nil =>
    intro w
    simp [occursIn, List.isEmpty_iff]
  | cons c s1 ih =>
    intro w
    simp [occursIn, List.infix_cons_iff, headMatches_iff, ih]

theorem occursIn_nil_right : ∀ s : JSString, occursIn s [] = true := by
  intro s
  match s with
  | [] => rfl
  | c :: s1 => simp [occursIn, headMatches]

theorem scoreFoldCount (t : JSString) :
    ∀ (ws : List JSString) (n : Nat),
      ws.foldl (fun score word => if occursIn t word then score + 1 else score) n
        = n + ws.countP (fun w => occursIn t w) := by
  intro ws
  induction ws with
  | nil => intro n; simp
  | cons w ws ih =>
    intro n
    rcases h : occursIn t w with hf | ht
    all_goals simp [List.countP_cons, h, ih]
    all_goals omega

theorem scoreProduct_eq_countP (p : AmazonProduct) (kw : JSString) :
    scoreProduct p kw
      = (splitSpace (jsToLower kw)).countP (fun w => occursIn (jsToLower p.title) w) := by
  simp [scoreProduct, scoreFoldCount]

/-! ## Claim C3 -/

/-- C3, counterexample: the claim says `scoreProduct` returns the count of
DISTINCT keyword words occurring in the title; on title "a" and keyword "a a"
the source returns 2 (one per token, with multiplicity) while the distinct
count is 1. -/
theorem claim_C3_counterexample :
    scoreProduct exProductA exKeywordAA = 2
      ∧ scoreProductSpecDistinct exProductA exKeywordAA = 1
      ∧ scoreProduct exProductA exKeywordAA ≠ scoreProductSpecDistinct exProductA exKeywordAA := by
  refine ⟨by decide, by decide, by decide⟩

/-- C3, amended: `scoreProduct` lowercases both strings, splits the keyword on
the space character, and returns the number of resulting tokens (counted with
multiplicity) that occur as substrings of the lowercased title; in particular
on title "Wireless Security Camera" and keyword "security camera" it
returns 2. -/
theorem claim_C3_amended :
    (∀ (p : AmazonProduct) (kw : JSString),
      scoreProduct p kw
        = (splitSpace (jsToLower kw)).countP (fun w => decide (w <:+: jsToLower p.title)))
    ∧ scoreProduct exWirelessCam exSecurityCameraKw = 2 := by
  constructor
  · intro p kw
    rw [scoreProduct_eq_countP]
    congr 1
    funext w
    by_cases h : w <:+: jsToLower p.title
    · simp [h, (occursIn_iff (jsToLower p.title) w).mpr h]
    · have hocc : occursIn (jsToLower p.title) w = false := by
        rcases hh : occursIn (jsToLower p.title) w with h1 | h1
        · rfl
        · exact absurd ((occursIn_iff (jsToLower p.title) w).mp hh) h
      rw [hocc, decide_eq_false h]
  · decide

/-! ## Claim C4 -/

/-- C4: `isMainProduct` returns true whenever the lowercased keyword contains an
accessory indicator; otherwise it is true iff the lowercased title contains no
indicator.  Instances: title "Camera Wall Mount" with keyword "security camera"
gives false, with keyword "camera mount" gives true. -/
theorem claim_C4 :
    (∀ (p : AmazonProduct) (kw : JSString),
      isMainProduct p kw = true ↔
        ((∃ ind ∈ accessoryIndicators, ind <:+: jsToLower kw)
          ∨ (∀ ind ∈ accessoryIndicators, ¬ ind <:+: jsToLower p.title)))
    ∧ isMainProduct exCameraWallMount exSecurityCameraKw = false
    ∧ isMainProduct exCameraWallMount exCameraMountKw = true := by
  refine ⟨?_, by decide, by decide⟩
  intro p kw
  simp only [isMainProduct]
  by_cases h : accessoryIndicators.any (fun indicator => occursIn (jsToLower kw) indicator) = true
  · rw [if_pos h]
    simp only [List.any_eq_true, occursIn_iff] at h
    simp [h]
  · rw [if_neg h]
    have hkw : ∀ ind ∈ accessoryIndicators, ¬ ind <:+: jsToLower kw := by
      intro ind hind hcon
      exact h (List.any_eq_true.mpr ⟨ind, hind, (occursIn_iff _ _).mpr hcon⟩)
    constructor
    · intro hb
      right
      simp only [Bool.not_eq_true', List.any_eq_false] at hb
      intro ind hind hcon
      exact hb ind hind ((occursIn_iff (jsToLower p.title) ind).mpr hcon)
    · rintro (hcontra | htitle)
      · rcases hcontra with ⟨ind, hind, hcon⟩
        exact absurd hcon (hkw ind hind)
      · simp only [Bool.not_eq_true', List.any_eq_false]
        intro ind hind hcon
        exact (htitle ind hind) ((occursIn_iff (jsToLower p.title) ind).mp hcon)

/-! ## Claim C10 -/

/-- C10: `scoreProduct` splits only on U+0020 (a tab does not separate tokens),
counts tokens with multiplicity (keyword "a a" scores 2 against title "a"),
empty tokens always match (`includes("")` is true on every string), and for
every product the single-space keyword " " scores exactly 2 (two empty
tokens). -/
theorem claim_C10 :
    (∀ p : AmazonProduct, scoreProduct p exSingleSpaceKw = 2)
    ∧ scoreProduct exProductA exKeywordAA = 2
    ∧ splitSpace exTabKeyword = [exTabKeyword]
    ∧ (∀ s : JSString, occursIn s [] = true) := by
  refine ⟨?_, by decide, by decide, occursIn_nil_right⟩
  intro p
  simp only [scoreProduct]
  have h1 : splitSpace (jsToLower exSingleSpaceKw) = [[], []] := by decide
  rw [h1]
  simp [occursIn_nil_right]

/-! ## Claim C2 -/

theorem isEligible_passes (p : ScoredProduct) :
    isEligible p
      = (passes p Criterion.scorePos && passes p Criterion.mainProduct
          && passes p Criterion.buyBox && passes p Criterion.conditionNew
          && passes p Criterion.rankBelow && passes p Criterion.availNow) := rfl

theorem jsToLower_newLit : jsToLower newLit = newLit := by decide

theorem jsToUpper_nowLit : jsToUpper nowLit = nowLit := by decide

theorem one_lt_rankBound : (1 : ℕ∞) < (10000 : ℕ∞) := by decide

/-- C2: a scored candidate is kept iff score > 0, isMain, isBuyBoxWinner, the
lowercased condition is "new", salesRank is finite and below 10000, and the
uppercased availability type is "NOW" or "IN_STOCK"; and a candidate failing
exactly one criterion is excluded while flipping that one criterion to a
passing value (all else equal) includes it. -/
theorem claim_C2 :
    (∀ p : ScoredProduct,
      isEligible p = true ↔
        (0 < p.score ∧ p.isMain = true ∧ p.isBuyBoxWinner = true
          ∧ jsToLower p.condition = newLit
          ∧ p.salesRank ≠ ⊤ ∧ p.salesRank < (10000 : ℕ∞)
          ∧ (jsToUpper (p.availabilityType.getD []) = nowLit
              ∨ jsToUpper (p.availabilityType.getD []) = inStockLit)))
    ∧ (∀ (p : ScoredProduct) (c : Criterion),
        passes p c = false → (∀ c2, c2 ≠ c → passes p c2 = true) →
        isEligible p = false ∧ isEligible (fixCriterion c p) = true) := by
  constructor
  · intro p
    simp only [isEligible, Bool.and_eq_true, Bool.or_eq_true, Bool.not_eq_true',
      beq_iff_eq, beq_eq_false_iff_ne, decide_eq_true_eq]
    constructor
    · rintro ⟨⟨⟨⟨⟨h0, h1⟩, h2⟩, h3⟩, h4⟩, h5⟩
      exact ⟨Nat.pos_of_ne_zero h0, h1, h2, h3, ne_top_of_lt h4, h4, h5⟩
    · rintro ⟨h0, h1, h2, h3, _, h4, h5⟩
      exact ⟨⟨⟨⟨⟨Nat.pos_iff_ne_zero.mp h0, h1⟩, h2⟩, h3⟩, h4⟩, h5⟩
  · intro p c hf hp
    cases c with
    | scorePos =>
      have h1 := hp Criterion.mainProduct (by decide)
      have h2 := hp Criterion.buyBox (by decide)
      have h3 := hp Criterion.conditionNew (by decide)
      have h4 := hp Criterion.rankBelow (by decide)
      have h5 := hp Criterion.availNow (by decide)
      refine ⟨by rw [isEligible_passes, hf]; simp, ?_⟩
      rw [isEligible_passes]
      simp only [passes, fixCriterion] at h1 h2 h3 h4 h5 ⊢
      simp [h1, h2, h3, h4, h5]
    | mainProduct =>
      have h0 := hp Criterion.scorePos (by decide)
      have h2 := hp Criterion.buyBox (by decide)
      have h3 := hp Criterion.conditionNew (by decide)
      have h4 := hp Criterion.rankBelow (by decide)
      have h5 := hp Criterion.availNow (by decide)
      refine ⟨by rw [isEligible_passes, hf]; simp, ?_⟩
      rw [isEligible_passes]
      simp only [passes, fixCriterion] at h0 h2 h3 h4 h5 ⊢
      simp [h0, h2, h3, h4, h5]
    | buyBox =>
      have h0 := hp Criterion.scorePos (by decide)
      have h1 := hp Criterion.mainProduct (by decide)
      have h3 := hp Criterion.conditionNew (by decide)
      have h4 := hp Criterion.rankBelow (by decide)
      have h5 := hp Criterion.availNow (by decide)
      refine ⟨by rw [isEligible_passes, hf]; simp, ?_⟩
      rw [isEligible_passes]
      simp only [passes, fixCriterion] at h0 h1 h3 h4 h5 ⊢
      simp [h0, h1, h3, h4, h5]
    | conditionNew =>
      have h0 := hp Criterion.scorePos (by decide)
      have h1 := hp Criterion.mainProduct (by decide)
      have h2 := hp Criterion.buyBox (by decide)
      have h4 := hp Criterion.rankBelow (by decide)
      have h5 := hp Criterion.availNow (by decide)
      refine ⟨by rw [isEligible_passes, hf]; simp, ?_⟩
      rw [isEligible_passes]
      simp only [passes, fixCriterion] at h0 h1 h2 h4 h5 ⊢
      simp [h0, h1, h2, h4, h5, jsToLower_newLit]
    | rankBelow =>
      have h0 := hp Criterion.scorePos (by decide)
      have h1 := hp Criterion.mainProduct (by decide)
      have h2 := hp Criterion.buyBox (by decide)
      have h3 := hp Criterion.conditionNew (by decide)
      have h5 := hp Criterion.availNow (by decide)
      refine ⟨by rw [isEligible_passes, hf]; simp, ?_⟩
      rw [isEligible_passes]
      simp only [passes, fixCriterion] at h0 h1 h2 h3 h5 ⊢
      simp [h0, h1, h2, h3, h5, one_lt_rankBound]
    | availNow =>
      have h0 := hp Criterion.scorePos (by decide)
      have h1 := hp Criterion.mainProduct (by decide)
      have h2 := hp Criterion.buyBox (by decide)
      have h3 := hp Criterion.conditionNew (by decide)
      have h4 := hp Criterion.rankBelow (by decide)
      refine ⟨by rw [isEligible_passes, hf]; simp, ?_⟩
      rw [isEligible_passes]
      simp only [passes, fixCriterion] at h0 h1 h2 h3 h4 ⊢
      simp [h0, h1, h2, h3, h4, jsToUpper_nowLit]

/-- C2, witness: a concrete candidate failing exactly the condition criterion is
excluded, and becomes included once the condition is set to "new". -/
theorem claim_C2_witness :
    isEligible exFailCondition = false
      ∧ isEligible (fixCriterion Criterion.conditionNew exFailCondition) = true :=
  claim_C2.2 exFailCondition Criterion.conditionNew (by decide) (by decide)

/-! ## Claim C1 -/

theorem sortKeyPart002_lt_iff (a b : ScoredProduct) :
    sortKeyPart002 a < sortKeyPart002 b ↔
      (b.score < a.score
        ∨ (a.score = b.score
            ∧ (a.salesRank < b.salesRank
                ∨ (a.salesRank = b.salesRank
                    ∧ a.isPrimeEligible = true ∧ b.isPrimeEligible = false)))) := by
  simp only [sortKeyPart002, Prod.Lex.lt_iff, OrderDual.toDual_lt_toDual,
    OrderDual.toDual_inj, Bool.lt_iff]
  tauto

theorem comparePart002_lt_iff (a b : ScoredProduct) :
    comparePart002 a b = Ordering.lt ↔ sortKeyPart002 a < sortKeyPart002 b := by
  rw [sortKeyPart002_lt_iff]
  unfold comparePart002
  split_ifs with h1 h2 h3 h4 h5 h6
  · exact iff_of_true rfl (Or.inl h2)
  · apply iff_of_false (by simp)
    rintro (hc | ⟨he, _⟩)
    · exact h2 hc
    · exact h1 he.symm
  · have heq : b.score = a.score := not_ne_iff.mp h1
    exact iff_of_true rfl (Or.inr ⟨heq.symm, Or.inl h4⟩)
  · have heq : b.score = a.score := not_ne_iff.mp h1
    apply iff_of_false (by simp)
    rintro (hc | ⟨_, hr | ⟨hre, _⟩⟩)
    · omega
    · exact h4 hr
    · exact h3 hre
  · have heq : b.score = a.score := not_ne_iff.mp h1
    have hre : a.salesRank = b.salesRank := not_ne_iff.mp h3
    apply iff_of_false (by simp)
    rintro (hc | ⟨_, hr | ⟨_, _, hbf⟩⟩)
    · omega
    · exact absurd hre (ne_of_lt hr)
    · rw [h6] at hbf
      exact Bool.noConfusion hbf
  · have heq : b.score = a.score := not_ne_iff.mp h1
    have hre : a.salesRank = b.salesRank := not_ne_iff.mp h3
    have hb : b.isPrimeEligible = false := by
      rcases hbb : b.isPrimeEligible with h7 | h7
      · rfl
      · exact absurd hbb h6
    have ha : a.isPrimeEligible = true := by
      rcases haa : a.isPrimeEligible with h7 | h7
      · rw [hb, haa] at h5
        exact absurd rfl h5
      · rfl
    exact iff_of_true rfl (Or.inr ⟨heq.symm, Or.inr ⟨hre, ha, hb⟩⟩)
  · have heq : b.score = a.score := not_ne_iff.mp h1
    have hre : a.salesRank = b.salesRank := not_ne_iff.mp h3
    have hpe : b.isPrimeEligible = a.isPrimeEligible := not_ne_iff.mp h5
    apply iff_of_false (by simp)
    rintro (hc | ⟨_, hr | ⟨_, hat, hbf⟩⟩)
    · omega
    · exact absurd hre (ne_of_lt hr)
    · rw [hat, hbf] at hpe
      exact Bool.noConfusion hpe

theorem comparePart002_gt_iff (a b : ScoredProduct) :
    comparePart002 a b = Ordering.gt ↔ sortKeyPart002 b < sortKeyPart002 a := by
  rw [sortKeyPart002_lt_iff]
  unfold comparePart002
  split_ifs with h1 h2 h3 h4 h5 h6
  · apply iff_of_false (by simp)
    rintro (hc | ⟨he, _⟩)
    · omega
    · exact h1 he
  · have hlt : b.score < a.score ∨ a.score < b.score := Nat.lt_or_lt_of_ne h1
    have : a.score < b.score := by
      rcases hlt with hx | hx
      · exact absurd hx h2
      · exact hx
    exact iff_of_true rfl (Or.inl this)
  · apply iff_of_false (by simp)
    have heq : b.score = a.score := not_ne_iff.mp h1
    rintro (hc | ⟨_, hr | ⟨hre, _⟩⟩)
    · omega
    · exact absurd (lt_trans h4 hr) (lt_irrefl _)
    · exact h3 hre.symm
  · have heq : b.score = a.score := not_ne_iff.mp h1
    have hlt : a.salesRank < b.salesRank ∨ b.salesRank < a.salesRank :=
      lt_or_gt_of_ne h3
    have hba : b.salesRank < a.salesRank := by
      rcases hlt with hx | hx
      · exact absurd hx h4
      · exact hx
    exact iff_of_true rfl (Or.inr ⟨heq, Or.inl hba⟩)
  · have heq : b.score = a.score := not_ne_iff.mp h1
    have hre : a.salesRank = b.salesRank := not_ne_iff.mp h3
    have ha : a.isPrimeEligible = false := by
      rcases haa : a.isPrimeEligible with h7 | h7
      · rfl
      · rw [h6, haa] at h5
        exact absurd rfl h5
    exact iff_of_true rfl (Or.inr ⟨heq, Or.inr ⟨hre.symm, h6, ha⟩⟩)
  · have heq : b.score = a.score := not_ne_iff.mp h1
    have hre : a.salesRank = b.salesRank := not_ne_iff.mp h3
    have hb : b.isPrimeEligible = false := by
      rcases hbb : b.isPrimeEligible with h7 | h7
      · rfl
      · exact absurd hbb h6
    apply iff_of_false (by simp)
    rintro (hc | ⟨_, hr | ⟨_, hbt, _⟩⟩)
    · omega
    · exact absurd hre (ne_of_gt hr)
    · rw [hb] at hbt
      exact Bool.noConfusion hbt
  · have heq : b.score = a.score := not_ne_iff.mp h1
    have hre : a.salesRank = b.salesRank := not_ne_iff.mp h3
    have hpe : b.isPrimeEligible = a.isPrimeEligible := not_ne_iff.mp h5
    apply iff_of_false (by simp)
    rintro (hc | ⟨_, hr | ⟨_, hbt, haf⟩⟩)
    · omega
    · exact absurd hre (ne_of_gt hr)
    · rw [hbt, haf] at hpe
      exact Bool.noConfusion hpe

theorem lePart002_iff (a b : ScoredProduct) :
    (comparePart002 a b ≠ Ordering.gt) ↔ sortKeyPart002 a ≤ sortKeyPart002 b := by
  constructor
  · intro h
    exact not_lt.mp (fun hlt => h ((comparePart002_gt_iff a b).mpr hlt))
  · intro h hgt
    exact absurd ((comparePart002_gt_iff a b).mp hgt) (not_lt.mpr h)

instance : IsTrans ScoredProduct (fun a b => comparePart002 a b ≠ Ordering.gt) where
  trans a b c hab hbc :=
    (lePart002_iff a c).mpr (le_trans ((lePart002_iff a b).mp hab) ((lePart002_iff b c).mp hbc))

instance : IsTotal ScoredProduct (fun a b => comparePart002 a b ≠ Ordering.gt) where
  total a b := by
    rcases le_total (sortKeyPart002 a) (sortKeyPart002 b) with h | h
    · exact Or.inl ((lePart002_iff a b).mpr h)
    · exact Or.inr ((lePart002_iff b a).mpr h)

theorem compareServer_lt_iff (a b : ScoredProduct) :
    compareServer a b = Ordering.lt ↔
      (a.salesRank < b.salesRank
        ∨ (a.salesRank = b.salesRank
            ∧ ((a.isPrimeEligible = true ∧ b.isPrimeEligible = false)
                ∨ (a.isPrimeEligible = b.isPrimeEligible ∧ b.score < a.score)))) := by
  unfold compareServer
  split_ifs with h1 h2 h3 h4 h5 h6
  · exact iff_of_true rfl (Or.inl h2)
  · apply iff_of_false (by simp)
    rintro (hc | ⟨he, _⟩)
    · exact h2 hc
    · exact h1 he
  · have hre : a.salesRank = b.salesRank := not_ne_iff.mp h1
    apply iff_of_false (by simp)
    rintro (hc | ⟨_, ⟨_, hbf⟩ | ⟨hpe, _⟩⟩)
    · exact absurd hre (ne_of_lt hc)
    · rw [h4] at hbf
      exact Bool.noConfusion hbf
    · exact h3 hpe.symm
  · have hre : a.salesRank = b.salesRank := not_ne_iff.mp h1
    have hb : b.isPrimeEligible = false := by
      rcases hbb : b.isPrimeEligible with h7 | h7
      · rfl
      · exact absurd hbb h4
    have ha : a.isPrimeEligible = true := by
      rcases haa : a.isPrimeEligible with h7 | h7
      · rw [hb, haa] at h3
        exact absurd rfl h3
      · rfl
    exact iff_of_true rfl (Or.inr ⟨hre, Or.inl ⟨ha, hb⟩⟩)
  · have hre : a.salesRank = b.salesRank := not_ne_iff.mp h1
    have hpe : b.isPrimeEligible = a.isPrimeEligible := not_ne_iff.mp h3
    exact iff_of_true rfl (Or.inr ⟨hre, Or.inr ⟨hpe.symm, h5⟩⟩)
  · have hre : a.salesRank = b.salesRank := not_ne_iff.mp h1
    have hpe : b.isPrimeEligible = a.isPrimeEligible := not_ne_iff.mp h3
    apply iff_of_false (by simp)
    rintro (hc | ⟨_, ⟨hat, hbf⟩ | ⟨_, hsc⟩⟩)
    · exact absurd hre (ne_of_lt hc)
    · rw [hat, hbf] at hpe
      exact Bool.noConfusion hpe
    · omega
  · have hre : a.salesRank = b.salesRank := not_ne_iff.mp h1
    have hpe : b.isPrimeEligible = a.isPrimeEligible := not_ne_iff.mp h3
    apply iff_of_false (by simp)
    rintro (hc | ⟨_, ⟨hat, hbf⟩ | ⟨_, hsc⟩⟩)
    · exact absurd hre (ne_of_lt hc)
    · rw [hat, hbf] at hpe
      exact Bool.noConfusion hpe
    · exact h5 hsc

/-- C1, counterexample: the live `searchProducts` (amazon-service.ts) does NOT
use keyword-match score as the primary sort key.  Two eligible candidates with
scores 2 and 1: the score-1 candidate has the better sales rank and is ordered
first, so a higher-score candidate does not precede a lower-score one. -/
theorem claim_C1_counterexample :
    isEligible exHighScore = true ∧ isEligible exLowScore = true
      ∧ exLowScore.score < exHighScore.score
      ∧ sortEligible [exHighScore, exLowScore] = [exLowScore, exHighScore] := by
  refine ⟨by decide, by decide, by decide, by decide⟩

/-- C1, amended: revision part_002 sorts exactly as the claim states (score
descending, then sales rank ascending with absent = `⊤` last, then Prime
first), and its sort output is ordered under that comparator and is a
permutation of its input; the live revision (amazon-service.ts) instead sorts
by sales rank ascending first, then Prime first, then score descending, so
there a higher-score candidate need not precede a lower-score one. -/
theorem claim_C1_amended :
    (∀ a b : ScoredProduct,
      comparePart002 a b = Ordering.lt ↔
        (b.score < a.score
          ∨ (a.score = b.score
              ∧ (a.salesRank < b.salesRank
                  ∨ (a.salesRank = b.salesRank
                      ∧ a.isPrimeEligible = true ∧ b.isPrimeEligible = false)))))
    ∧ (∀ a b : ScoredProduct,
      compareServer a b = Ordering.lt ↔
        (a.salesRank < b.salesRank
          ∨ (a.salesRank = b.salesRank
              ∧ ((a.isPrimeEligible = true ∧ b.isPrimeEligible = false)
                  ∨ (a.isPrimeEligible = b.isPrimeEligible ∧ b.score < a.score)))))
    ∧ (∀ l : List ScoredProduct,
        (sortEligiblePart002 l).Pairwise (fun a b => comparePart002 a b ≠ Ordering.gt)
          ∧ (sortEligiblePart002 l).Perm l) := by
  refine ⟨?_, compareServer_lt_iff, ?_⟩
  · intro a b
    rw [comparePart002_lt_iff, sortKeyPart002_lt_iff]
  · intro l
    exact ⟨List.sorted_insertionSort _ l, List.perm_insertionSort _ l⟩

/-! ## Lemmas about batching and the event traces -/

theorem detailCallsOf_nil : detailCallsOf [] = [] := rfl

theorem detailCallsOf_cons_call (b : List JSString) (evs : List Ev) :
    detailCallsOf (Ev.detailCall b :: evs) = b :: detailCallsOf evs := by
  simp [detailCallsOf]

theorem detailCallsOf_cons_sleep (m : Nat) (evs : List Ev) :
    detailCallsOf (Ev.sleep m :: evs) = detailCallsOf evs := by
  simp [detailCallsOf]

theorem detailCallsOf_append (e1 e2 : List Ev) :
    detailCallsOf (e1 ++ e2) = detailCallsOf e1 ++ detailCallsOf e2 := by
  simp [detailCallsOf]

theorem detailBatchesGo_flatten :
    ∀ (fuel : Nat) (l : List JSString), l.length ≤ fuel →
      (detailBatchesGo fuel l).flatten = l := by
  intro fuel
  induction fuel with
  | zero =>
    intro l h
    match l with
    | [] => rfl
  | succ n ih =>
    intro l h
    match l with
    | [] => rfl
    | a :: rest =>
      simp only [detailBatchesGo, List.flatten_cons]
      rw [ih]
      · exact List.take_append_drop 10 (a :: rest)
      · simp only [List.length_drop, List.length_cons]
        simp only [List.length_cons] at h
        omega

theorem detailBatchesGo_length :
    ∀ (fuel : Nat) (l : List JSString), l.length ≤ fuel →
      (detailBatchesGo fuel l).length = (l.length + 9) / 10 := by
  intro fuel
  induction fuel with
  | zero =>
    intro l h
    match l with
    | [] => rfl
  | succ n ih =>
    intro l h
    match l with
    | [] => rfl
    | a :: rest =>
      simp only [detailBatchesGo, List.length_cons]
      rw [ih]
      · simp only [List.length_drop, List.length_cons]
        omega
      · simp only [List.length_drop, List.length_cons]
        simp only [List.length_cons] at h
        omega

theorem detailBatchesGo_le10 :
    ∀ (fuel : Nat) (l : List JSString), ∀ b ∈ detailBatchesGo fuel l, b.length ≤ 10 := by
  intro fuel
  induction fuel with
  | zero =>
    intro l b hb
    match l with
    | [] => simp [detailBatchesGo] at hb
    | _ :: _ => simp [detailBatchesGo] at hb
  | succ n ih =>
    intro l b hb
    match l with
    | [] => simp [detailBatchesGo] at hb
    | a :: rest =>
      simp only [detailBatchesGo, List.mem_cons] at hb
      rcases hb with hb | hb
      · rw [hb]
        simp [List.length_take]
      · exact ih _ b hb

theorem detailBatchesGo_sizes :
    ∀ (fuel : Nat) (l : List JSString),
      (detailBatchesGo fuel l).map List.length = batchSizesGo fuel l.length := by
  intro fuel
  induction fuel with
  | zero =>
    intro l
    match l with
    | [] => rfl
    | _ :: _ => rfl
  | succ n ih =>
    intro l
    match l with
    | [] => rfl
    | a :: rest =>
      simp only [detailBatchesGo, List.map_cons, List.length_take, List.length_cons,
        batchSizesGo, ih, List.length_drop]

theorem detailCallsOf_if_sleep (c : Prop) [Decidable c] (evs : List Ev) :
    detailCallsOf ((if c then [] else [Ev.sleep 1100]) ++ evs) = detailCallsOf evs := by
  by_cases h : c
  · simp [h]
  · simp [h, detailCallsOf_cons_sleep]

theorem detailFetchLoopGo_calls :
    ∀ (d : List JSString → DetailResult) (fuel : Nat) (l : List JSString),
      detailCallsOf (detailFetchLoopGo d fuel l).1 = detailBatchesGo fuel l := by
  intro d fuel
  induction fuel with
  | zero =>
    intro l
    match l with
    | [] => rfl
    | _ :: _ => rfl
  | succ n ih =>
    intro l
    match l with
    | [] => rfl
    | a :: rest =>
      cases hdb : d ((a :: rest).take 10) with
      | okResp items =>
        simp only [detailFetchLoopGo, hdb, detailBatchesGo, detailCallsOf_cons_call,
          detailCallsOf_if_sleep, ih]
      | badStatus =>
        simp only [detailFetchLoopGo, hdb, detailBatchesGo, detailCallsOf_cons_call, ih]
      | thrown =>
        simp only [detailFetchLoopGo, hdb, detailBatchesGo, detailCallsOf_cons_call,
          detailCallsOf_if_sleep, ih]

theorem detailBatchesGo_ne_nil :
    ∀ (fuel : Nat) (b : JSString) (bs : List JSString),
      (b :: bs : List JSString).length ≤ fuel → detailBatchesGo fuel (b :: bs) ≠ [] := by
  intro fuel b bs h
  match fuel, h with
  | 0, h => simp at h
  | m + 1, _ => simp [detailBatchesGo]

theorem detailFetchLoopGo_events :
    ∀ (d : List JSString → DetailResult), (∀ b, d b ≠ DetailResult.badStatus) →
      ∀ (fuel : Nat) (l : List JSString), l.length ≤ fuel →
        (detailFetchLoopGo d fuel l).1 = pacedCalls (detailBatchesGo fuel l) := by
  intro d hd fuel
  induction fuel with
  | zero =>
    intro l h
    match l with
    | [] => rfl
  | succ n ih =>
    intro l h
    match l with
    | [] => rfl
    | a :: rest =>
      simp only [List.length_cons] at h
      have h1 : (detailFetchLoopGo d (n + 1) (a :: rest)).1
          = Ev.detailCall ((a :: rest).take 10)
            :: ((if ((a :: rest).drop 10).isEmpty then [] else [Ev.sleep 1100])
                ++ (detailFetchLoopGo d n ((a :: rest).drop 10)).1) := by
        cases hdc : d ((a :: rest).take 10) with
        | okResp items => simp only [detailFetchLoopGo, hdc]
        | badStatus => exact absurd hdc (hd _)
        | thrown => simp only [detailFetchLoopGo, hdc]
      rw [h1]
      by_cases hre : (a :: rest).drop 10 = []
      · simp [detailFetchLoopGo, detailBatchesGo, hre, pacedCalls]
      · obtain ⟨b, bs, hbs⟩ : ∃ b bs, (a :: rest).drop 10 = b :: bs := by
          rcases hd2 : (a :: rest).drop 10 with _ | ⟨b, bs⟩
          · exact absurd hd2 hre
          · exact ⟨b, bs, rfl⟩
        have hlen : ((a :: rest).drop 10).length ≤ n := by
          simp only [List.length_drop, List.length_cons]
          omega
        have hne : detailBatchesGo n ((a :: rest).drop 10) ≠ [] := by
          rw [hbs] at hlen ⊢
          exact detailBatchesGo_ne_nil n b bs hlen
        rcases hdb : detailBatchesGo n ((a :: rest).drop 10) with _ | ⟨bb, bbs⟩
        · exact absurd hdb hne
        · simp only [detailBatchesGo]
          rw [ih ((a :: rest).drop 10) hlen, hdb, hbs]
          simp [pacedCalls]

/-- In a run where every batch fails with a non-success status, the `continue`
skips the pacing sleep on every iteration: the trace is the bare sequence of
bulk calls with no delay anywhere. -/
theorem detailFetchLoopGo_allBad :
    ∀ (fuel : Nat) (l : List JSString),
      (detailFetchLoopGo (fun _ => DetailResult.badStatus) fuel l).1
        = (detailBatchesGo fuel l).map Ev.detailCall := by
  intro fuel
  induction fuel with
  | zero =>
    intro l
    match l with
    | [] => rfl
    | _ :: _ => rfl
  | succ n ih =>
    intro l
    match l with
    | [] => rfl
    | a :: rest =>
      simp only [detailFetchLoopGo, detailBatchesGo, List.map_cons, ih]

theorem collectPages_blocks :
    ∀ (resp : Nat → PageResult) (fuel page : Nat),
      sleepCallBlocks (collectPages resp fuel page).1 = true := by
  intro resp fuel
  induction fuel with
  | zero => intro page; rfl
  | succ n ih =>
    intro page
    cases h : resp page with
    | okResp items =>
      by_cases hlen : items.length < 10
      · simp [collectPages, h, hlen, sleepCallBlocks]
      · simp [collectPages, h, hlen, sleepCallBlocks, ih]
    | badStatus => simp [collectPages, h, sleepCallBlocks, ih]
    | thrown => simp [collectPages, h, sleepCallBlocks]

theorem collectPages_ok :
    ∀ (resp : Nat → PageResult), (∀ p, resp p ≠ PageResult.thrown) →
      ∀ (fuel page : Nat), ∃ items, (collectPages resp fuel page).2 = Except.ok items := by
  intro resp h fuel
  induction fuel with
  | zero => intro page; exact ⟨[], rfl⟩
  | succ n ih =>
    intro page
    cases hr : resp page with
    | okResp items =>
      by_cases hlen : items.length < 10
      · exact ⟨items, by simp [collectPages, hr, hlen]⟩
      · obtain ⟨rest, hrest⟩ := ih (page + 1)
        exact ⟨items ++ rest, by simp [collectPages, hr, hlen, hrest, Except.map]⟩
    | badStatus =>
      obtain ⟨rest, hrest⟩ := ih (page + 1)
      exact ⟨rest, by simp [collectPages, hr, hrest]⟩
    | thrown => exact absurd hr (h page)

theorem partitionCached_fst (cache : JSString → Option AmazonProduct) :
    ∀ ids : List JSString, (partitionCached cache ids).1 = ids.filterMap cache := by
  intro ids
  induction ids with
  | nil => rfl
  | cons a rest ih =>
    cases hc : cache a with
    | none => simp [partitionCached, hc, ih]
    | some v => simp [partitionCached, hc, ih]

theorem partitionCached_snd_nil (cache : JSString → Option AmazonProduct) :
    ∀ ids : List JSString, (∀ a ∈ ids, (cache a).isSome = true) →
      (partitionCached cache ids).2 = [] := by
  intro ids
  induction ids with
  | nil => intro _; rfl
  | cons a rest ih =>
    intro h
    have ha := h a (List.mem_cons_self a rest)
    cases hc : cache a with
    | none =>
      rw [hc] at ha
      exact Bool.noConfusion ha
    | some v =>
      simp [partitionCached, hc, ih (fun x hx => h x (List.mem_cons_of_mem a hx))]

/-! ## Claim C9 -/

/-- C9: the detail-fetch loop slices its id list into consecutive batches of at
most 10; for a 25-id list it issues exactly 3 bulk requests of sizes 10, 10, 5
in that order; in general the batches are the ⌈n/10⌉ consecutive slices, they
concatenate back to the id list (every id exactly once), and each has at most
10 ids. -/
theorem claim_C9 :
    (∀ (d : List JSString → DetailResult) (ids : List JSString),
      ids.length = 25 →
      (detailCallsOf (detailFetchLoop d ids).1).map List.length = [10, 10, 5])
    ∧ (∀ (d : List JSString → DetailResult) (ids : List JSString),
        detailCallsOf (detailFetchLoop d ids).1 = detailBatches ids)
    ∧ (∀ ids : List JSString,
        (detailBatches ids).flatten = ids
          ∧ (detailBatches ids).length = (ids.length + 9) / 10
          ∧ ∀ b ∈ detailBatches ids, b.length ≤ 10) := by
  refine ⟨?_, ?_, ?_⟩
  · intro d ids h
    rw [detailFetchLoop, detailFetchLoopGo_calls, detailBatchesGo_sizes, h]
    decide
  · intro d ids
    rw [detailFetchLoop, detailFetchLoopGo_calls, detailBatches]
  · intro ids
    exact ⟨detailBatchesGo_flatten ids.length ids le_rfl,
      detailBatchesGo_length ids.length ids le_rfl,
      detailBatchesGo_le10 ids.length ids⟩

/-- C9 witness at 25 concrete uncached ids. -/
theorem claim_C9_witness :
    exIds25.length = 25
      ∧ (detailCallsOf (detailFetchLoop detailAlwaysEmpty exIds25).1).map List.length
          = [10, 10, 5] :=
  ⟨by decide, claim_C9.1 detailAlwaysEmpty exIds25 (by decide)⟩

/-! ## Claim C8 -/

/-- C8, counterexample: the paged-search loop of `searchProducts` sleeps 1100 ms
before EVERY page request, the first one included (`await this.sleep(1100)` runs
unconditionally at the top of each iteration; only the log line is guarded by
`page > 1`).  In a one-page run the first event of the trace is already a
delay, before the first outbound call, contradicting the claim's "never invoked
before the first call of the sequence". -/
theorem claim_C8_counterexample :
    (collectPages respAllEmpty 10 1).1 = [Ev.sleep 1100, Ev.searchCall 1]
      ∧ (collectPages respAllEmpty 10 1).1.head? = some (Ev.sleep 1100) := by
  exact ⟨by decide, by decide⟩

/-- C8, amended: in the paged-search loop the trace is a sequence of
(delay, search-call) blocks, so a delay separates successive calls but one also
precedes the first call.  In the batched detail-fetch loop, as long as no batch
fails with a non-success status, the 1.1 s delay occurs exactly between
successive bulk calls (never before the first or after the last); a batch that
does fail with a non-success status skips its trailing delay via `continue` —
in a run where every batch so fails, the trace is the bare call sequence with
no delay at all. -/
theorem claim_C8_amended :
    (∀ (resp : Nat → PageResult) (fuel page : Nat),
      sleepCallBlocks (collectPages resp fuel page).1 = true)
    ∧ (∀ (d : List JSString → DetailResult) (asins : List JSString),
        (∀ b, d b ≠ DetailResult.badStatus) →
        (detailFetchLoop d asins).1 = pacedCalls (detailBatches asins))
    ∧ (∀ asins : List JSString,
        (detailFetchLoop (fun _ => DetailResult.badStatus) asins).1
          = (detailBatches asins).map Ev.detailCall) := by
  refine ⟨collectPages_blocks, ?_, ?_⟩
  · intro d asins hd
    exact detailFetchLoopGo_events d hd asins.length asins le_rfl
  · intro asins
    exact detailFetchLoopGo_allBad asins.length asins

/-- C8 witness: a concrete oracle that never answers with a non-success status
paces the 25-id run exactly between its three bulk calls. -/
theorem claim_C8_witness :
    (∀ b, detailAlwaysEmpty b ≠ DetailResult.badStatus)
      ∧ (detailFetchLoop detailAlwaysEmpty exIds25).1
          = pacedCalls (detailBatches exIds25) :=
  ⟨fun _ h => DetailResult.noConfusion h,
    claim_C8_amended.2.1 detailAlwaysEmpty exIds25 (fun _ h => DetailResult.noConfusion h)⟩

/-! ## Claim C5 -/

/-- C5: in revision part_002's `getItemsDetails`, when every requested id is in
the Detail Cache the output is exactly the cached records (in id order) and the
event trace is empty — in particular no bulk-detail transport call and no
pacing delay happens at all. -/
theorem claim_C5 :
    ∀ (cache : JSString → Option AmazonProduct) (d : List JSString → DetailResult)
      (ids : List JSString),
      (∀ a ∈ ids, (cache a).isSome = true) →
      (getItemsDetailsPart002 cache d ids).2 = ids.filterMap cache
        ∧ (getItemsDetailsPart002 cache d ids).1 = [] := by
  intro cache d ids h
  have hsnd := partitionCached_snd_nil cache ids h
  have hz : (detailFetchLoop d []).2 = ([] : List AmazonProduct) := rfl
  constructor
  · simp only [getItemsDetailsPart002, hsnd, partitionCached_fst, hz]
    simp
  · simp only [getItemsDetailsPart002, hsnd]
    rfl

/-- C5 witness: a concrete all-cached run. -/
theorem claim_C5_witness :
    (∀ a ∈ exIds25, (cacheAllHit a).isSome = true)
      ∧ ((getItemsDetailsPart002 cacheAllHit detailAlwaysEmpty exIds25).2
            = exIds25.filterMap cacheAllHit
          ∧ (getItemsDetailsPart002 cacheAllHit detailAlwaysEmpty exIds25).1 = []) :=
  ⟨by decide, claim_C5 cacheAllHit detailAlwaysEmpty exIds25 (by decide)⟩

/-! ## Claim C6 -/

/-- C6, counterexample: a non-success status on the FIRST search page is not
escalated: with page 1 failing and page 2 delivering one raw candidate, the
live `searchProducts` completes normally and returns that candidate (the
`!response.ok` branch does `continue` on every page, page 1 included). -/
theorem claim_C6_counterexample :
    respFirstPageFails 1 = PageResult.badStatus
      ∧ (searchProductsServer respFirstPageFails detailAlwaysGood exCameraKw 5).2
          = SearchOutcome.results [annotate exCameraKw exGoodDetail] := by
  exact ⟨by decide, by decide⟩

/-- C6, amended: a transport failure with a non-success status is only logged
and skipped on every page, the first included; the whole operation fails only
when a page request throws (network rejection), which the loop does not catch. -/
theorem claim_C6_amended :
    ∀ (resp : Nat → PageResult) (d : List JSString → DetailResult)
      (keyword : JSString) (count : Nat),
      (∀ p, resp p ≠ PageResult.thrown) →
      (searchProductsServer resp d keyword count).2 ≠ SearchOutcome.failure := by
  intro resp d kw c h
  obtain ⟨items, hi⟩ := collectPages_ok resp h 10 1
  simp [searchProductsServer, hi]

/-- C6 witness: every page failing with a non-success status still yields a
normal (empty) result, not a failure. -/
theorem claim_C6_witness :
    (∀ p, respAllBad p ≠ PageResult.thrown)
      ∧ (searchProductsServer respAllBad detailAlwaysEmpty exCameraKw 5).2
          ≠ SearchOutcome.failure :=
  ⟨fun _ h => PageResult.noConfusion h,
    claim_C6_amended respAllBad detailAlwaysEmpty exCameraKw 5
      (fun _ h => PageResult.noConfusion h)⟩

/-! ## Claim C7 -/

theorem collectPages_allEmpty (resp : Nat → PageResult)
    (h : ∀ p, resp p = PageResult.okResp []) :
    ∀ (fuel page : Nat), (collectPages resp (fuel + 1) page).2 = Except.ok [] := by
  intro fuel page
  simp [collectPages, h page]

/-- C7, counterexample: when the paged collection yields zero raw candidates,
`searchProducts` silently returns an empty array (no distinct condition is
signalled), and the same empty array is returned when raw candidates exist but
none pass eligibility — the two situations are indistinguishable to the
caller. -/
theorem claim_C7_counterexample :
    (searchProductsServer respAllEmpty detailAlwaysEmpty exCameraKw 5).2
        = SearchOutcome.results []
      ∧ (searchProductsServer respOneCandidate detailAlwaysIneligible exCameraKw 5).2
          = SearchOutcome.results [] := by
  exact ⟨by decide, by decide⟩

/-- C7, amended: `searchProducts` itself returns an empty array when all pages
are empty; the "No products found for this keyword" error is raised by the
content-generator caller, and it fires exactly when the returned array is
empty — for zero raw candidates and for no eligible candidates alike. -/
theorem claim_C7_amended :
    (∀ (resp : Nat → PageResult) (d : List JSString → DetailResult)
        (kw : JSString) (count : Nat),
      (∀ p, resp p = PageResult.okResp []) →
      (searchProductsServer resp d kw count).2 = SearchOutcome.results [])
    ∧ (∀ l : List ScoredProduct,
        generateContentGate l = GenOutcome.threw noProductsMsg ↔ l = []) := by
  constructor
  · intro resp d kw c h
    have h10 : (collectPages resp 10 1).2 = Except.ok [] := collectPages_allEmpty resp h 9 1
    simp [searchProductsServer, h10, getItemsDetailsServer, detailFetchLoop,
      detailFetchLoopGo, sortEligible]
  · intro l
    cases l with
    | nil => simp [generateContentGate]
    | cons a rest => simp [generateContentGate]

/-- C7 witness: the amended statement at a concrete all-empty page oracle. -/
theorem claim_C7_witness :
    (∀ p, respAllEmpty p = PageResult.okResp [])
      ∧ (searchProductsServer respAllEmpty detailAlwaysEmpty exCameraKw 7).2
          = SearchOutcome.results [] :=
  ⟨fun _ => rfl,
    claim_C7_amended.1 respAllEmpty detailAlwaysEmpty exCameraKw 7 (fun _ => rfl)⟩

/-- C5, counterexample: the live revision's `getItemsDetails`
(amazon-service.ts lines 370-452) never consults the Detail Cache — even with
every requested id cached, it issues one bulk-detail call per batch (three for
25 ids), so "zero bulk requests" fails for that revision. -/
theorem claim_C5_counterexample :
    (∀ a ∈ exIds25, (cacheAllHit a).isSome = true)
      ∧ detailCallsOf (getItemsDetailsServer detailAlwaysEmpty exIds25).1
          = detailBatches exIds25
      ∧ detailCallsOf (getItemsDetailsServer detailAlwaysEmpty exIds25).1 ≠ [] := by
  exact ⟨by decide, by decide, by decide⟩
